import Mathlib

/-!
Verification of the order-hierarchy execution and fill-propagation engine
scattered across the VWAP generator scripts of this repository.

Conventions of the shallow embedding:
* Python ints are modelled as ℤ (quantities, counters) and Python floats as
  exact rationals ℚ (prices, probabilities, participation rates).
* Order dicts are modelled as structures holding exactly the fields the
  claims are about; enum values and state tags are modelled by their string
  values, as the scripts themselves store plain strings in the dicts.
* Mutation is modelled by explicit state passing; the append-only snapshot
  list of the tick database is part of the state.
-/

namespace VwapSim

/-- Order record: the quantity/price/state fields of the order dicts shared
by all generator scripts (for example generate_production_vwap_fixed.py
lines 125-139). -/
structure Order where
  order_level : ℤ
  quantity : ℤ
  filled_quantity : ℤ
  remaining_quantity : ℤ
  average_price : ℚ
  state : String
deriving Repr, DecidableEq

/-- Snapshot appended to the tick database by add_snapshot: a copy of the
order dict plus the event type tag. -/
structure Snapshot where
  ord : Order
  event_type : String
deriving Repr, DecidableEq

/-! ## Schedule Planner: urgency classification (claim C3) -/

/-- Urgency classification from ProductionVWAPSimulator.calculate_urgency
(src/data/generate_production_vwap.py lines 91-110).  The argument
`expected` is the cumulative expected quantity sum(self.schedule[:hour+1])
and `filled` the cumulative filled quantity; the result is the value string
of the returned Urgency enum member. -/
def calculate_urgency (expected filled : ℤ) : String :=
  let participation_rate : ℚ :=
    if expected > 0 then (filled : ℚ) / (expected : ℚ) * 100 else 100
  if participation_rate ≥ 95 then "PASSIVE"
  else if participation_rate ≥ 85 then "NORMAL"
  else if participation_rate ≥ 70 then "URGENT"
  else "CRITICAL"

/-- Inline urgency classification in ProductionVWAPGenerator.generate
(src/data/generate_production_vwap_fixed.py lines 180-190).  Unlike
calculate_urgency, the participation rate is taken as 0 (not 100) when
`expected` is not positive. -/
def urgency_fixed_generate (expected filled : ℤ) : String :=
  let participation_rate : ℚ :=
    if expected > 0 then (filled : ℚ) / (expected : ℚ) * 100 else 0
  if participation_rate < 70 then "CRITICAL"
  else if participation_rate < 85 then "URGENT"
  else if participation_rate < 95 then "NORMAL"
  else "PASSIVE"

/-- Modelled from the spec (section 4.1): participation rate, taken as 100%
when the expected cumulative quantity is 0. -/
def participation_rate_spec (expected filled : ℤ) : ℚ :=
  if expected = 0 then 100 else (filled : ℚ) / (expected : ℚ) * 100

/-- Modelled from the spec (section 4.1): the urgency bucket table,
rate ≥ 95 Passive, 85 ≤ rate < 95 Normal, 70 ≤ rate < 85 Urgent,
rate < 70 Critical. -/
def urgency_table_spec (rate : ℚ) : String :=
  if rate ≥ 95 then "PASSIVE"
  else if rate ≥ 85 then "NORMAL"
  else if rate ≥ 70 then "URGENT"
  else "CRITICAL"

/-! ## Schedule Planner: session schedule (claim C6) -/

/-- Intraday U-shaped participation curve of calculate_vwap_schedule
(src/data/generate_production_vwap.py lines 32-41). -/
def participation_curve : List ℚ :=
  [15/100, 10/100, 8/100, 7/100, 8/100, 10/100, 12/100, 30/100]

/-- calculate_vwap_schedule (src/data/generate_production_vwap.py lines
29-50): per-hour expected quantities int(total_quantity * pct) for the
first `hours` curve fractions, with the last hour replaced by
total_quantity - sum(schedule[:-1]).  Python int() truncates toward zero,
which on the nonnegative products equals the floor.  The Python code
indexes schedule[-1] and so requires hours ≥ 1. -/
def calculate_vwap_schedule (total_quantity : ℤ) (hours : ℕ) : List ℤ :=
  let schedule :=
    (participation_curve.take hours).map (fun pct => ⌊(total_quantity : ℚ) * pct⌋)
  schedule.dropLast ++ [total_quantity - schedule.dropLast.sum]

/-- Cumulative expected quantity after the first `p` periods of a schedule. -/
def expected_cumulative (schedule : List ℤ) (p : ℕ) : ℤ :=
  (schedule.take p).sum

/-! ## Fill model -/

/-- Immutable fill fact: executed quantity and price (venue and timestamp
carry no quantity/price semantics and are omitted). -/
structure Fill where
  quantity : ℤ
  price : ℚ
deriving Repr, DecidableEq

/-- Round-half-to-even to an integer: the rounding mode of Python round()
applied to an exact rational value. -/
def round_half_even (x : ℚ) : ℤ :=
  let f := ⌊x⌋
  let frac := x - (f : ℚ)
  if frac < 1/2 then f
  else if frac > 1/2 then f + 1
  else if f % 2 = 0 then f else f + 1

/-- Python round(x, 4) on an exact rational value: round half to even at
four decimal places. -/
def pyRound4 (x : ℚ) : ℚ := ((round_half_even (x * 10000) : ℤ) : ℚ) / 10000

/-- Quantity conservation invariant of the spec (section 3): filled plus
remaining equals the requested quantity. -/
def qty_invariant (o : Order) : Prop :=
  o.filled_quantity + o.remaining_quantity = o.quantity

/-! ## Fill Propagator of the fixed production generator -/

/-- Mutable state of ProductionVWAPGenerator
(src/data/generate_production_vwap_fixed.py lines 30-55): the running fill
totals, the client and algo parent order dicts and the tick database. -/
structure GenState where
  order_size : ℤ
  total_filled : ℤ
  total_value : ℚ
  client : Order
  algo_parent : Order
  snapshots : List Snapshot
deriving Repr, DecidableEq

/-- ProductionVWAPGenerator.propagate_fill_up_chain
(src/data/generate_production_vwap_fixed.py lines 67-111): applies one
venue fill of slice_filled shares worth slice_value to the given slice
order, then cascades to the algo parent and the client order, appending one
snapshot per updated level.  Timestamp arithmetic and the urgency /
participation_pct decoration of the algo parent are omitted (no claim
concerns them). -/
def propagate_fill_up_chain (slice_filled : ℤ) (slice_value : ℚ)
    (slice_order : Order) (st : GenState) : Order × GenState :=
  if slice_filled = 0 then (slice_order, st)
  else
    let total_filled := st.total_filled + slice_filled
    let total_value := st.total_value + slice_value
    let s1 : Order := { slice_order with
      filled_quantity := slice_order.filled_quantity + slice_filled }
    let s2 : Order := { s1 with
      remaining_quantity := s1.quantity - s1.filled_quantity }
    let s3 : Order := if s2.filled_quantity > 0
      then { s2 with average_price := slice_value / (slice_filled : ℚ) }
      else s2
    let s4 : Order := { s3 with
      state := if s3.filled_quantity ≥ s3.quantity then "FILLED" else "PARTIAL" }
    let algo : Order := { st.algo_parent with
      filled_quantity := total_filled,
      remaining_quantity := st.order_size - total_filled,
      average_price := if total_filled > 0
        then total_value / (total_filled : ℚ)
        else st.algo_parent.average_price,
      state := if total_filled ≥ st.order_size then "FILLED" else "WORKING" }
    let client : Order := { st.client with
      filled_quantity := total_filled,
      remaining_quantity := st.order_size - total_filled,
      average_price := algo.average_price,
      state := algo.state }
    (s4,
      { st with
        total_filled := total_filled,
        total_value := total_value,
        algo_parent := algo,
        client := client,
        snapshots := st.snapshots ++
          [⟨s4, "SLICE_UPDATE"⟩, ⟨algo, "ALGO_UPDATE"⟩, ⟨client, "CLIENT_UPDATE"⟩] })

/-- One venue fill propagated up the chain, as invoked from
ProductionVWAPGenerator.generate (lines 322-334): the filled quantity, its
value filled_qty * fill_price, and the slice order it belongs to. -/
structure FillEvent where
  filled_qty : ℤ
  fill_value : ℚ
  slice : Order
deriving Repr, DecidableEq

/-- State of ProductionVWAPGenerator.generate after the client order is
acknowledged and the algo parent created (lines 124-164): NEW and ACCEPTED
client snapshots and the NEW algo parent snapshot are on the log. -/
def initial_gen_state (order_size : ℤ) : GenState :=
  let client0 : Order :=
    { order_level := 0, quantity := order_size,
      filled_quantity := 0, remaining_quantity := order_size,
      average_price := 0, state := "PENDING" }
  let client1 : Order := { client0 with state := "ACCEPTED" }
  let algo0 : Order :=
    { order_level := 1, quantity := order_size,
      filled_quantity := 0, remaining_quantity := order_size,
      average_price := 0, state := "WORKING" }
  { order_size := order_size, total_filled := 0, total_value := 0,
    client := client1, algo_parent := algo0,
    snapshots := [⟨client0, "NEW"⟩, ⟨client1, "ACCEPTED"⟩, ⟨algo0, "NEW"⟩] }

/-- Folding one fill event into the generator state. -/
def apply_fill_event (st : GenState) (e : FillEvent) : GenState :=
  (propagate_fill_up_chain e.filled_qty e.fill_value e.slice st).2

/-- Final update of ProductionVWAPGenerator.generate (lines 336-342): when
the order is fully executed the algo parent and client are marked FILLED
and a COMPLETED snapshot of each is appended, algo before client. -/
def finalize_generator (st : GenState) : GenState :=
  if st.total_filled ≥ st.order_size then
    let algo : Order := { st.algo_parent with state := "FILLED" }
    let client : Order := { st.client with state := "FILLED" }
    { st with
      algo_parent := algo, client := client,
      snapshots := st.snapshots ++ [⟨algo, "COMPLETED"⟩, ⟨client, "COMPLETED"⟩] }
  else st

/-- ProductionVWAPGenerator.generate, abstracted over the stream of venue
fills the random venue model produces: initial snapshots, one
propagate_fill_up_chain call per nonzero venue fill, final COMPLETED
snapshots on full execution. -/
def run_generator (order_size : ℤ) (events : List FillEvent) : GenState :=
  finalize_generator (events.foldl apply_fill_event (initial_gen_state order_size))

/-- Client-level view of the tick database: the snapshots with
order_level = 0, in log order. -/
def client_log (st : GenState) : List Snapshot :=
  st.snapshots.filter (fun s => s.ord.order_level = 0)

/-! ## Algo engine of trading_system_simulator_v2 -/

/-- Per-parent tracking dict of AlgoEngine
(src/scripts/trading_system_simulator_v2.py lines 301-307): the algo
parent order, the client order it mirrors to, and the accumulated fill
log. -/
structure ParentData where
  ord : Order
  client_order : Order
  fills : List Fill
deriving Repr, DecidableEq

/-- AlgoEngine._process_fills (src/scripts/trading_system_simulator_v2.py
lines 369-441): aggregates one batch of venue fills into the slice (child)
order, extends the parent fill log, updates the parent totals recomputing
the volume-weighted average from the whole log with round(., 4), and
mirrors the parent onto the client order.  Snapshot capture and the
filled_children counter are omitted (no claim concerns them). -/
def process_fills (child : Order) (fills : List Fill) (pd : ParentData) :
    Order × ParentData :=
  if fills.isEmpty then (child, pd)
  else
    let total_qty := (fills.map (fun f => f.quantity)).sum
    let total_value := (fills.map (fun f => (f.quantity : ℚ) * f.price)).sum
    let avg_price := if total_qty > 0 then total_value / (total_qty : ℚ) else 0
    let child2 : Order := { child with
      filled_quantity := total_qty,
      remaining_quantity := child.quantity - total_qty,
      average_price := pyRound4 avg_price,
      state := if total_qty ≥ child.quantity then "FILLED" else "PARTIALLY_FILLED" }
    let all_fills := pd.fills ++ fills
    let filled2 := pd.ord.filled_quantity + total_qty
    let total_parent_value :=
      (all_fills.map (fun f => (f.quantity : ℚ) * f.price)).sum
    let parent2 : Order := { pd.ord with
      filled_quantity := filled2,
      remaining_quantity := pd.ord.quantity - filled2,
      average_price := if filled2 > 0
        then pyRound4 (total_parent_value / (filled2 : ℚ)) else 0,
      state := if filled2 ≥ pd.ord.quantity then "FILLED" else "WORKING" }
    let client2 : Order := { pd.client_order with
      filled_quantity := parent2.filled_quantity,
      remaining_quantity := parent2.remaining_quantity,
      average_price := parent2.average_price,
      state := if parent2.state = "FILLED" then "FILLED" else "WORKING" }
    (child2, { ord := parent2, client_order := client2, fills := all_fills })

/-- A sequence of slices processed by the algo engine: each batch is the
slice (child) order together with the venue fills the SOR reported for
it. -/
def run_algo_engine (pd : ParentData) (batches : List (Order × List Fill)) :
    ParentData :=
  batches.foldl (fun acc b => (process_fills b.1 b.2 acc).2) pd

/-! ## Cascade of generate_tick_database -/

/-- Accumulator of TickDatabaseGenerator.generate_complete_flow
(src/scripts/generate_tick_database.py lines 92-239): total filled, the
append-only fills_data log, and the algo parent / client order dicts. -/
structure TickFlowState where
  quantity : ℤ
  total_filled : ℤ
  fills_data : List Fill
  algo_parent : Order
  client_order : Order
deriving Repr, DecidableEq

/-- One slice of TickDatabaseGenerator.generate_complete_flow (lines
150-239): the venue fills of the slice are appended to fills_data as they
execute; if the slice filled anything the totals cascade to the algo
parent and the client, the average price being recomputed exactly from the
whole fills_data log. -/
def tick_flow_slice (st : TickFlowState) (batch : List Fill) : TickFlowState :=
  let fills_data := st.fills_data ++ batch
  let slice_filled := (batch.map (fun f => f.quantity)).sum
  if slice_filled > 0 then
    let total_filled := st.total_filled + slice_filled
    let total_value := (fills_data.map (fun f => (f.quantity : ℚ) * f.price)).sum
    let avg := if total_filled > 0 then total_value / (total_filled : ℚ) else 0
    let algo : Order := { st.algo_parent with
      filled_quantity := total_filled,
      remaining_quantity := st.quantity - total_filled,
      average_price := avg,
      state := if total_filled < st.quantity then "WORKING" else "FILLED" }
    let client : Order := { st.client_order with
      filled_quantity := total_filled,
      remaining_quantity := st.quantity - total_filled,
      average_price := avg,
      state := if total_filled < st.quantity then "WORKING" else "FILLED" }
    { st with
      fills_data := fills_data, total_filled := total_filled,
      algo_parent := algo, client_order := client }
  else { st with fills_data := fills_data }

/-- The complete tick-database flow over a list of slice fill batches. -/
def run_tick_flow (quantity : ℤ) (batches : List (List Fill)) : TickFlowState :=
  batches.foldl tick_flow_slice
    { quantity := quantity, total_filled := 0, fills_data := [],
      algo_parent :=
        { order_level := 1, quantity := quantity,
          filled_quantity := 0, remaining_quantity := quantity,
          average_price := 0, state := "WORKING" },
      client_order :=
        { order_level := 0, quantity := quantity,
          filled_quantity := 0, remaining_quantity := quantity,
          average_price := 0, state := "PENDING" } }

/-! ## Venue Response Model of the fixed production generator -/

/-- Venue outcome of ProductionVWAPGenerator.generate
(src/data/generate_production_vwap_fixed.py lines 262-291): the outcome and
the filled quantity as a pure function of the injected uniform draw
outcome_rand, the secondary draw used to split reject from no-connection,
and the requested route size (// is Python floor division, which on
nonnegative operands is ℤ division). -/
def venue_outcome (outcome_rand second_rand : ℚ) (route_size : ℤ) :
    String × ℤ :=
  if outcome_rand < 5/100 then ("FADE", 0)
  else if outcome_rand < 15/100 then ("PARTIAL", route_size / 2)
  else if outcome_rand < 17/100 then
    (if second_rand < 1/2 then "REJECT" else "NO_CONNECTION", 0)
  else ("FILLED", route_size)

/-- Route order construction of ProductionVWAPGenerator.generate (lines
294-310): created directly in its terminal outcome state and never mutated
afterwards. -/
def mk_sor_route (route_size filled_qty : ℤ) (fill_price : ℚ)
    (result_state : String) : Order :=
  { order_level := 3, quantity := route_size, filled_quantity := filled_qty,
    remaining_quantity := route_size - filled_qty,
    average_price := if filled_qty > 0 then fill_price else 0,
    state := result_state }

/-- Terminal route-attempt states of the spec (sections 4.2 and 7): a route
order in one of these states receives no further mutation. -/
def terminal_route_states : List String :=
  ["FILLED", "PARTIAL", "FADE", "REJECT", "NO_CONNECTION"]

/-! ## Enhanced Smart Order Router (sor_simulator_enhanced.py) -/

/-- Environment of a single venue attempt: the random draws and liquidity
figures consumed by EnhancedVenue.execute_order and the liquidity figure
the router itself saw for the venue on this pass (the venue re-ticks the
market, so the two liquidity values are independent).  Liquidity values
come from random.randint and are nonnegative by construction. -/
structure VenueEnv where
  fade_draw : ℚ
  reject_draw : ℚ
  fade_probability : ℚ
  competition_level : ℚ
  available_liquidity : ℕ
  router_liquidity : ℕ
deriving Repr, DecidableEq

/-- EnhancedVenue.execute_order (src/scripts/sor_simulator_enhanced.py
lines 79-127): fade check, liquidity check, then instruction-specific fill
logic; returns the response tag and the filled quantity (fill price
omitted: the claims on this router concern quantities and pass counts). -/
def execute_order (instruction : String) (requested_qty : ℤ)
    (env : VenueEnv) : String × ℤ :=
  if env.fade_draw < env.fade_probability * env.competition_level then
    ("FADE", 0)
  else if env.available_liquidity = 0 then ("NO_LIQUIDITY", 0)
  else if instruction = "ExecuteOrEliminate" then
    if (env.available_liquidity : ℤ) < requested_qty then
      if env.reject_draw < 3/10 then ("REJECTED", 0)
      else ("PARTIAL", (env.available_liquidity : ℤ))
    else ("FILLED", requested_qty)
  else if instruction = "ImmediateOrCancel" then
    let fill_qty := min requested_qty (env.available_liquidity : ℤ)
    if fill_qty > 0 then
      (if fill_qty = requested_qty then "FILLED" else "PARTIAL", fill_qty)
    else ("NO_LIQUIDITY", 0)
  else ("FILLED", min requested_qty (env.available_liquidity : ℤ))

/-- Quantity accounting of EnhancedSmartOrderRouter.route_order
(src/scripts/sor_simulator_enhanced.py lines 145-148). -/
structure RouteState where
  remaining_qty : ℤ
  total_filled : ℤ
deriving Repr, DecidableEq

/-- One venue iteration of the routing pass (lines 176-255): slice the
remaining quantity by the venue liquidity the router saw, send it to the
venue, and book any filled quantity. -/
def route_venue_step (instruction : String) (st : RouteState)
    (env : VenueEnv) : RouteState :=
  if st.remaining_qty ≤ 0 then st
  else
    let slice_qty := min st.remaining_qty (env.router_liquidity : ℤ)
    if slice_qty ≤ 0 then st
    else
      let filled_qty := (execute_order instruction slice_qty env).2
      if filled_qty > 0 then
        { remaining_qty := st.remaining_qty - filled_qty,
          total_filled := st.total_filled + filled_qty }
      else st

/-- One full routing pass over the selected venues. -/
def route_pass (instruction : String) (venues : List VenueEnv)
    (st : RouteState) : RouteState :=
  venues.foldl (route_venue_step instruction) st

/-- Instruction selection of route_order (lines 165-168): aggressive EOE on
the first attempt, IOC on every retry. -/
def sor_instruction (retry_count : ℕ) : String :=
  if retry_count = 0 then "ExecuteOrEliminate" else "ImmediateOrCancel"

/-- Retry loop of route_order (lines 152-262): one pass per iteration while
residual quantity remains; retry_count increases after every pass, so the
list of pass environments is cut to max_retries + 1 entries, exactly the
while-guard retry_count ≤ max_retries.  Returns the final accounting state
and the number of passes executed. -/
def route_loop (passes : List (List VenueEnv)) (retry_count : ℕ)
    (st : RouteState) : RouteState × ℕ :=
  match passes with
  | [] => (st, 0)
  | venues :: rest =>
      if st.remaining_qty > 0 then
        let st1 := route_pass (sor_instruction retry_count) venues st
        let r := route_loop rest (retry_count + 1) st1
        (r.1, r.2 + 1)
      else (st, 0)

/-- EnhancedSmartOrderRouter.route_order (lines 140-270) over an injected
stream of per-pass market environments; max_retries defaults to 2 (line
138).  The returned total_filled is handed back to the caller together
with the accounting state carrying the residual. -/
def route_order (quantity : ℤ) (max_retries : ℕ)
    (passes : List (List VenueEnv)) : RouteState × ℕ :=
  route_loop (passes.take (max_retries + 1)) 0
    { remaining_qty := quantity, total_filled := 0 }

/-- EnhancedSmartOrderRouter._create_sor_order (lines 272-294): the route
order as created, before the venue response. -/
def create_sor_order (quantity : ℤ) : Order :=
  { order_level := 3, quantity := quantity, filled_quantity := 0,
    remaining_quantity := quantity, average_price := 0, state := "PENDING" }

/-- Route-order update on the venue response in
EnhancedSmartOrderRouter.route_order (lines 216-242): state,
filled_quantity and average_price are set per response; remaining_quantity
is never touched. -/
def update_sor_order_on_response (o : Order) (response : String)
    (filled_qty : ℤ) (fill_price : ℚ) : Order :=
  if response = "FILLED" then
    { o with
      state := "FILLED", filled_quantity := filled_qty,
      average_price := fill_price }
  else if response = "PARTIAL" then
    { o with
      state := "PARTIAL", filled_quantity := filled_qty,
      average_price := fill_price }
  else if response = "FADE" then
    { o with state := "FADE", filled_quantity := 0 }
  else if response = "NO_LIQUIDITY" then
    { o with state := "NO_FILL", filled_quantity := 0 }
  else
    { o with state := "REJECTED", filled_quantity := 0 }

/-! ## Venue split of trading_system_simulator_v2 -/

/-- Venue split of SmartOrderRouter.route_order
(src/scripts/trading_system_simulator_v2.py lines 174-190): the quantity is
divided equally over the selected venues with Python floor division, and
the remainder quantity % num_venues is added to the last venue's order. -/
def sor_split_route_order (quantity : ℤ) (num_venues : ℕ) : List ℤ :=
  let qty_per_venue := quantity / (num_venues : ℤ)
  let remainder := quantity % (num_venues : ℤ)
  (List.range num_venues).map
    (fun idx => qty_per_venue + (if idx = num_venues - 1 then remainder else 0))

/-! ### Helper lemmas -/

lemma sum_map_floor_le (t : ℚ) (ht : 0 ≤ t) (ps : List ℚ) :
    (((ps.map fun p => ⌊t * p⌋).sum : ℤ) : ℚ) ≤ t * ps.sum := by
  induction ps with
  | nil => simp
  | cons p rest ih =>
      simp only [List.map_cons, List.sum_cons, mul_add]
      rw [Int.cast_add]
      exact add_le_add (Int.floor_le (t * p)) ih

lemma curve_mem_nonneg : ∀ p ∈ participation_curve, (0 : ℚ) ≤ p := by
  intro p hp
  fin_cases hp <;> norm_num

lemma curve_take_sum_le_one (k : ℕ) (hk : k ≤ 8) :
    (participation_curve.take k).sum ≤ 1 := by
  interval_cases k <;> norm_num [participation_curve]

lemma sum_take_mono_of_nonneg (l : List ℤ) (h : ∀ q ∈ l, 0 ≤ q)
    (i j : ℕ) (hij : i ≤ j) : (l.take i).sum ≤ (l.take j).sum := by
  have h1 : (l.take j).take i = l.take i := by
    rw [List.take_take, Nat.min_eq_left hij]
  have h2 : l.take j = l.take i ++ (l.take j).drop i := by
    conv_lhs => rw [← List.take_append_drop i (l.take j)]
    rw [h1]
  rw [h2, List.sum_append]
  have hnn : 0 ≤ ((l.take j).drop i).sum := by
    apply List.sum_nonneg
    intro q hq
    exact h q (List.mem_of_mem_take (List.mem_of_mem_drop hq))
  linarith

lemma schedule_dropLast (total : ℤ) (hours : ℕ) :
    ((participation_curve.take hours).map
        (fun pct => ⌊(total : ℚ) * pct⌋)).dropLast
      = ((participation_curve.take hours).dropLast).map
          (fun pct => ⌊(total : ℚ) * pct⌋) :=
  (List.map_dropLast _ _).symm

lemma schedule_entry_nonneg (total : ℤ) (ht : 0 ≤ total) (hours : ℕ) :
    ∀ q ∈ (participation_curve.take hours).map
        (fun pct => ⌊(total : ℚ) * pct⌋), 0 ≤ q := by
  intro q hq
  rcases List.mem_map.mp hq with ⟨p, hp, rfl⟩
  have hpc : (0 : ℚ) ≤ p := curve_mem_nonneg p (List.mem_of_mem_take hp)
  have : (0 : ℚ) ≤ (total : ℚ) * p := by
    apply mul_nonneg _ hpc
    exact_mod_cast ht
  exact Int.floor_nonneg.mpr this

/-- Nonnegativity of the reconciled last schedule entry: the sum of the
floors of the first hours-1 curve slices never exceeds the total. -/
lemma schedule_last_nonneg (total : ℤ) (ht : 0 ≤ total) (hours : ℕ)
    (h8 : hours ≤ 8) :
    0 ≤ total - (((participation_curve.take hours).map
        (fun pct => ⌊(total : ℚ) * pct⌋)).dropLast).sum := by
  rw [schedule_dropLast]
  set ps := (participation_curve.take hours).dropLast with hps
  have hts : (0 : ℚ) ≤ (total : ℚ) := by exact_mod_cast ht
  have h1 : (((ps.map fun p => ⌊(total : ℚ) * p⌋).sum : ℤ) : ℚ)
      ≤ (total : ℚ) * ps.sum := sum_map_floor_le _ hts ps
  have hs1 : ps.sum ≤ 1 := by
    have hcl : participation_curve.length = 8 := by simp [participation_curve]
    have hlen : ps = participation_curve.take (hours - 1) := by
      rw [hps, List.dropLast_eq_take, List.take_take, List.length_take, hcl]
      congr 1
      omega
    rw [hlen]
    exact curve_take_sum_le_one _ (by omega)
  have h2 : (total : ℚ) * ps.sum ≤ (total : ℚ) := by
    calc (total : ℚ) * ps.sum ≤ (total : ℚ) * 1 := by
          apply mul_le_mul_of_nonneg_left hs1 hts
      _ = (total : ℚ) := mul_one _
  have : (((ps.map fun p => ⌊(total : ℚ) * p⌋).sum : ℤ) : ℚ) ≤ (total : ℚ) :=
    le_trans h1 h2
  have hle : ((ps.map fun p => ⌊(total : ℚ) * p⌋).sum : ℤ) ≤ total := by
    exact_mod_cast this
  omega

/-! ## Claim theorems: C3 and C6 -/

/-- C3: urgency is classified from participation_rate = actual_filled /
expected_cumulative with the rate taken as 100% when the expected quantity
is 0 (Passive for rate ≥ 95, Normal for 85 ≤ rate < 95, Urgent for
70 ≤ rate < 85, Critical for rate < 70); actual_filled=699 with
expected_cumulative=1000 classifies Critical, and expected_cumulative=0
classifies Passive for every actual_filled.  calculate_urgency implements
exactly this table, but the inline classification of
ProductionVWAPGenerator.generate treats an expected quantity of 0 as a
participation rate of 0 and classifies that case Critical, contradicting
the claim. -/
theorem urgency_classification_c3 :
    (∀ expected filled : ℤ, 0 ≤ expected →
        calculate_urgency expected filled
          = urgency_table_spec (participation_rate_spec expected filled))
    ∧ calculate_urgency 1000 699 = "CRITICAL"
    ∧ (∀ filled : ℤ, calculate_urgency 0 filled = "PASSIVE")
    ∧ urgency_fixed_generate 0 0 = "CRITICAL" := by
  refine ⟨?_, ?_, ?_, ?_⟩
  · intro expected filled he
    rcases lt_or_eq_of_le he with hpos | hzero
    · have hne : expected ≠ 0 := by omega
      simp only [calculate_urgency, urgency_table_spec, participation_rate_spec,
        if_pos hpos, if_neg hne]
    · simp only [calculate_urgency, urgency_table_spec, participation_rate_spec,
        ← hzero]
      norm_num
  · simp only [calculate_urgency]
    norm_num
  · intro filled
    simp only [calculate_urgency]
    norm_num
  · simp only [urgency_fixed_generate]
    norm_num

/-- Witness for urgency_classification_c3 at expected=1000, filled=699. -/
theorem urgency_classification_c3_witness :
    calculate_urgency 1000 699
      = urgency_table_spec (participation_rate_spec 1000 699) :=
  urgency_classification_c3.1 1000 699 (by norm_num)

/-- C6: for every total_quantity ≥ 0 and number of periods between 1 and 8,
the schedule consists of nonnegative per-period quantities summing exactly
to total_quantity; hence the cumulative expected quantity is non-decreasing
and the final period's cumulative equals total_quantity. -/
theorem vwap_schedule_c6 (total : ℤ) (hours : ℕ)
    (ht : 0 ≤ total) (h1 : 1 ≤ hours) (h8 : hours ≤ 8) :
    (calculate_vwap_schedule total hours).length = hours
    ∧ (∀ q ∈ calculate_vwap_schedule total hours, 0 ≤ q)
    ∧ (calculate_vwap_schedule total hours).sum = total
    ∧ (∀ i j : ℕ, i ≤ j →
        expected_cumulative (calculate_vwap_schedule total hours) i
          ≤ expected_cumulative (calculate_vwap_schedule total hours) j)
    ∧ expected_cumulative (calculate_vwap_schedule total hours) hours
        = total := by
  have hlen8 : participation_curve.length = 8 := by
    simp [participation_curve]
  have hmaplen : ((participation_curve.take hours).map
      (fun pct => ⌊(total : ℚ) * pct⌋)).length = hours := by
    rw [List.length_map, List.length_take, hlen8]
    omega
  have hnonneg : ∀ q ∈ calculate_vwap_schedule total hours, 0 ≤ q := by
    intro q hq
    simp only [calculate_vwap_schedule, List.mem_append,
      List.mem_singleton] at hq
    rcases hq with hq | hq
    · exact schedule_entry_nonneg total ht hours q (List.mem_of_mem_dropLast hq)
    · rw [hq]
      exact schedule_last_nonneg total ht hours h8
  have hsum : (calculate_vwap_schedule total hours).sum = total := by
    simp only [calculate_vwap_schedule, List.sum_append, List.sum_singleton]
    ring
  have hlength : (calculate_vwap_schedule total hours).length = hours := by
    simp only [calculate_vwap_schedule, List.length_append,
      List.length_singleton, List.length_dropLast, hmaplen]
    omega
  refine ⟨hlength, hnonneg, hsum, ?_, ?_⟩
  · intro i j hij
    exact sum_take_mono_of_nonneg _ hnonneg i j hij
  · unfold expected_cumulative
    rw [List.take_of_length_le (le_of_eq hlength), hsum]

/-- Witness for vwap_schedule_c6 at total=100000 over the default 7 hours. -/
theorem vwap_schedule_c6_witness :
    (calculate_vwap_schedule 100000 7).sum = 100000 :=
  (vwap_schedule_c6 100000 7 (by norm_num) (by norm_num) (by norm_num)).2.2.1

/-- C7: for every venue attempt with requested quantity q > 0 the outcome
is a pure function of the injected uniform draw: r < 0.05 gives FADE with 0
filled, 0.05 ≤ r < 0.15 gives PARTIAL with exactly q // 2 filled,
0.15 ≤ r < 0.17 gives REJECT or NO_CONNECTION (split evenly by the second
draw) with 0 filled, and otherwise FILLED with exactly q filled; each
FADE / REJECT / NO_CONNECTION outcome fills zero quantity and the route
order is recorded directly in that terminal state. -/
theorem venue_outcome_c7 (r r2 : ℚ) (q : ℤ) (hq : 0 < q) :
    (r < 5/100 → venue_outcome r r2 q = ("FADE", 0))
    ∧ (5/100 ≤ r → r < 15/100 → venue_outcome r r2 q = ("PARTIAL", q / 2))
    ∧ (15/100 ≤ r → r < 17/100 →
        venue_outcome r r2 q
          = (if r2 < 1/2 then "REJECT" else "NO_CONNECTION", 0))
    ∧ (17/100 ≤ r → venue_outcome r r2 q = ("FILLED", q))
    ∧ (∀ res fq, venue_outcome r r2 q = (res, fq) →
        res = "FADE" ∨ res = "REJECT" ∨ res = "NO_CONNECTION" →
        fq = 0 ∧ (mk_sor_route q fq 0 res).state ∈ terminal_route_states
          ∧ qty_invariant (mk_sor_route q fq 0 res)) := by
  refine ⟨?_, ?_, ?_, ?_, ?_⟩
  · intro h
    simp [venue_outcome, h]
  · intro h1 h2
    have hn : ¬ r < 5/100 := by linarith
    simp [venue_outcome, hn, h2]
  · intro h1 h2
    have hn1 : ¬ r < 5/100 := by linarith
    have hn2 : ¬ r < 15/100 := by linarith
    simp [venue_outcome, hn1, hn2, h2]
  · intro h1
    have hn1 : ¬ r < 5/100 := by linarith
    have hn2 : ¬ r < 15/100 := by linarith
    have hn3 : ¬ r < 17/100 := by linarith
    simp [venue_outcome, hn1, hn2, hn3]
  · intro res fq heq hres
    have hfq : fq = 0 := by
      simp only [venue_outcome] at heq
      split_ifs at heq <;>
        (injection heq with hres1 hfq1; subst hres1; subst hfq1) <;>
        simp_all
    refine ⟨hfq, ?_, ?_⟩
    · rcases hres with h | h | h <;> subst h <;>
        simp [mk_sor_route, terminal_route_states]
    · simp [mk_sor_route, qty_invariant, hfq]

/-- Witness for venue_outcome_c7: draw r = 0.1 on a 10-share route gives a
PARTIAL fill of 10 // 2 = 5. -/
theorem venue_outcome_c7_witness :
    venue_outcome (1/10) (1/4) 10 = ("PARTIAL", 5) := by
  have h := (venue_outcome_c7 (1/10) (1/4) 10 (by norm_num)).2.1
    (by norm_num) (by norm_num)
  simpa using h

/-- C10: splitting a slice of quantity q ≥ 0 over k ≥ 1 selected venues by
equal division creates exactly k route orders with nonnegative quantities
summing exactly to q, the integer-division remainder going to the last
venue's order. -/
theorem sor_split_c10 (q : ℤ) (k : ℕ) (hq : 0 ≤ q) (hk : 1 ≤ k) :
    (sor_split_route_order q k).length = k
    ∧ (∀ x ∈ sor_split_route_order q k, 0 ≤ x)
    ∧ (sor_split_route_order q k).sum = q
    ∧ (sor_split_route_order q k).getLast?
        = some (q / (k : ℤ) + q % (k : ℤ)) := by
  obtain ⟨m, rfl⟩ : ∃ m, k = m + 1 := ⟨k - 1, by omega⟩
  have hkz : ((m : ℤ) + 1) ≠ 0 := by positivity
  have hdiv : 0 ≤ q / ((m : ℤ) + 1) :=
    Int.ediv_nonneg hq (by positivity)
  have hmod : 0 ≤ q % ((m : ℤ) + 1) := Int.emod_nonneg q hkz
  have hcast : ((m + 1 : ℕ) : ℤ) = (m : ℤ) + 1 := by push_cast; ring
  have hrange : sor_split_route_order q (m + 1)
      = (List.range m).map (fun _ => q / ((m : ℤ) + 1))
        ++ [q / ((m : ℤ) + 1) + q % ((m : ℤ) + 1)] := by
    simp only [sor_split_route_order]
    rw [List.range_succ, List.map_append, List.map_singleton, hcast]
    congr 1
    · apply List.map_congr_left
      intro i hi
      have hne : i ≠ m + 1 - 1 := by
        have := List.mem_range.mp hi
        omega
      rw [if_neg hne, add_zero]
    · rw [if_pos (by omega : m = m + 1 - 1)]
  refine ⟨?_, ?_, ?_, ?_⟩
  · simp [sor_split_route_order]
  · intro x hx
    rw [hrange] at hx
    rcases List.mem_append.mp hx with hx | hx
    · rcases List.mem_map.mp hx with ⟨i, _, rfl⟩
      exact hdiv
    · rw [List.mem_singleton.mp hx]
      omega
  · rw [hrange, List.sum_append, List.sum_singleton]
    have hconst : ((List.range m).map (fun _ => q / ((m : ℤ) + 1))).sum
        = (m : ℤ) * (q / ((m : ℤ) + 1)) := by
      rw [List.map_const', List.sum_replicate, List.length_range]
      simp [nsmul_eq_mul]
    rw [hconst]
    have := Int.ediv_add_emod q ((m : ℤ) + 1)
    linarith
  · rw [hrange, List.getLast?_concat, hcast]

/-- Witness for sor_split_c10: 10000 shares over 3 venues split as
[3333, 3333, 3334]. -/
theorem sor_split_c10_witness :
    (sor_split_route_order 10000 3).sum = 10000 :=
  (sor_split_c10 10000 3 (by norm_num) (by norm_num)).2.2.1

/-- C4 fails on propagate_fill_up_chain: after a second fill at a different
price the slice's average_price is the price of the latest fill, not the
quantity-weighted mean of all fills under the slice.  A 30-share slice
filled 10 shares at 100 and then 10 shares at 200 ends with
filled_quantity 20 and remaining_quantity 10 as the claim states, but
average_price 200 instead of the weighted mean 150. -/
theorem slice_average_last_fill_c4 :
    (propagate_fill_up_chain 10 (10 * 200)
        (propagate_fill_up_chain 10 (10 * 100)
          ⟨2, 30, 0, 30, 0, "PENDING"⟩ (initial_gen_state 30)).1
        (propagate_fill_up_chain 10 (10 * 100)
          ⟨2, 30, 0, 30, 0, "PENDING"⟩ (initial_gen_state 30)).2).1.filled_quantity
        = 20
    ∧ (propagate_fill_up_chain 10 (10 * 200)
        (propagate_fill_up_chain 10 (10 * 100)
          ⟨2, 30, 0, 30, 0, "PENDING"⟩ (initial_gen_state 30)).1
        (propagate_fill_up_chain 10 (10 * 100)
          ⟨2, 30, 0, 30, 0, "PENDING"⟩ (initial_gen_state 30)).2).1.remaining_quantity
        = 10
    ∧ (propagate_fill_up_chain 10 (10 * 200)
        (propagate_fill_up_chain 10 (10 * 100)
          ⟨2, 30, 0, 30, 0, "PENDING"⟩ (initial_gen_state 30)).1
        (propagate_fill_up_chain 10 (10 * 100)
          ⟨2, 30, 0, 30, 0, "PENDING"⟩ (initial_gen_state 30)).2).1.average_price
        = 200
    ∧ ((10 : ℚ) * 100 + 10 * 200) / 20 = 150
    ∧ (propagate_fill_up_chain 10 (10 * 200)
        (propagate_fill_up_chain 10 (10 * 100)
          ⟨2, 30, 0, 30, 0, "PENDING"⟩ (initial_gen_state 30)).1
        (propagate_fill_up_chain 10 (10 * 100)
          ⟨2, 30, 0, 30, 0, "PENDING"⟩ (initial_gen_state 30)).2).1.average_price
        ≠ ((10 : ℚ) * 100 + 10 * 200) / 20 := by
  norm_num [propagate_fill_up_chain, initial_gen_state]

/-- C5: after every fill cascade the client order's filled_quantity,
remaining_quantity, average_price and state are identical to the algo
parent's, in both the fixed production generator and the v2 algo engine;
the client's average is inherited from the parent, never computed
independently. -/
theorem client_mirror_c5 :
    (∀ (fq : ℤ) (fv : ℚ) (sl : Order) (st : GenState), fq ≠ 0 →
      ((propagate_fill_up_chain fq fv sl st).2.client.filled_quantity
          = (propagate_fill_up_chain fq fv sl st).2.algo_parent.filled_quantity
        ∧ (propagate_fill_up_chain fq fv sl st).2.client.remaining_quantity
          = (propagate_fill_up_chain fq fv sl st).2.algo_parent.remaining_quantity
        ∧ (propagate_fill_up_chain fq fv sl st).2.client.average_price
          = (propagate_fill_up_chain fq fv sl st).2.algo_parent.average_price
        ∧ (propagate_fill_up_chain fq fv sl st).2.client.state
          = (propagate_fill_up_chain fq fv sl st).2.algo_parent.state))
    ∧ (∀ (child : Order) (fills : List Fill) (pd : ParentData), fills ≠ [] →
      ((process_fills child fills pd).2.client_order.filled_quantity
          = (process_fills child fills pd).2.ord.filled_quantity
        ∧ (process_fills child fills pd).2.client_order.remaining_quantity
          = (process_fills child fills pd).2.ord.remaining_quantity
        ∧ (process_fills child fills pd).2.client_order.average_price
          = (process_fills child fills pd).2.ord.average_price
        ∧ (process_fills child fills pd).2.client_order.state
          = (process_fills child fills pd).2.ord.state)) := by
  constructor
  · intro fq fv sl st hfq
    simp [propagate_fill_up_chain, hfq]
  · intro child fills pd hne
    have hie : fills.isEmpty = false := by
      cases fills with
      | nil => simp at hne
      | cons a l => rfl
    simp only [process_fills, hie]
    refine ⟨by simp, by simp, by simp, ?_⟩
    simp only [Bool.false_eq_true, if_false]
    split_ifs <;> simp_all

/-- Witness for client_mirror_c5: one 10-share fill at 100 on a fresh
30-share order. -/
theorem client_mirror_c5_witness :
    (propagate_fill_up_chain 10 1000 ⟨2, 30, 0, 30, 0, "PENDING"⟩
        (initial_gen_state 30)).2.client.average_price
      = (propagate_fill_up_chain 10 1000 ⟨2, 30, 0, 30, 0, "PENDING"⟩
        (initial_gen_state 30)).2.algo_parent.average_price :=
  (client_mirror_c5.1 10 1000 ⟨2, 30, 0, 30, 0, "PENDING"⟩
    (initial_gen_state 30) (by norm_num)).2.2.1

/-- C1: propagate_fill_up_chain preserves filled_quantity +
remaining_quantity = quantity at the slice, algo parent and client levels
and in every snapshot it records, but the claim fails at the route level of
the enhanced SOR: EnhancedSmartOrderRouter.route_order never updates
remaining_quantity when booking a venue response, so a 500-share route
order snapshotted after a full 500-share fill carries filled_quantity 500
and remaining_quantity 500 against quantity 500. -/
theorem qty_conservation_c1 :
    (∀ (fq : ℤ) (fv : ℚ) (sl : Order) (st : GenState),
        qty_invariant sl →
        qty_invariant st.algo_parent → qty_invariant st.client →
        st.algo_parent.quantity = st.order_size →
        st.client.quantity = st.order_size →
        (qty_invariant (propagate_fill_up_chain fq fv sl st).1
          ∧ qty_invariant (propagate_fill_up_chain fq fv sl st).2.algo_parent
          ∧ qty_invariant (propagate_fill_up_chain fq fv sl st).2.client
          ∧ ∀ s ∈ (propagate_fill_up_chain fq fv sl st).2.snapshots,
              s ∈ st.snapshots ∨ qty_invariant s.ord))
    ∧ ((update_sor_order_on_response (create_sor_order 500) "FILLED"
            500 650).filled_quantity
          + (update_sor_order_on_response (create_sor_order 500) "FILLED"
            500 650).remaining_quantity
        ≠ (update_sor_order_on_response (create_sor_order 500) "FILLED"
            500 650).quantity) := by
  constructor
  · intro fq fv sl st hsl halgo hclient haq hcq
    by_cases hfq : fq = 0
    · simp only [propagate_fill_up_chain, if_pos hfq]
      exact ⟨hsl, halgo, hclient, fun s hs => Or.inl hs⟩
    · simp only [propagate_fill_up_chain, if_neg hfq]
      refine ⟨?_, ?_, ?_, ?_⟩
      · simp only [qty_invariant] at hsl ⊢
        split_ifs <;> simp
      · simp only [qty_invariant] at halgo ⊢
        simp [haq]
      · simp only [qty_invariant] at hclient ⊢
        simp [hcq]
      · intro s hs
        simp only [List.mem_append, List.mem_cons,
          List.not_mem_nil, or_false] at hs
        rcases hs with hs | hs | hs | hs
        · exact Or.inl hs
        · right
          subst hs
          simp only [qty_invariant] at hsl ⊢
          split_ifs <;> simp
        · right
          subst hs
          simp only [qty_invariant]
          simp [haq]
        · right
          subst hs
          simp only [qty_invariant]
          simp [hcq]
  · decide

/-- Witness for qty_conservation_c1: a 10-share fill at 100 into a fresh
30-share hierarchy keeps the client invariant. -/
theorem qty_conservation_c1_witness :
    qty_invariant (propagate_fill_up_chain 10 1000
      ⟨2, 30, 0, 30, 0, "PENDING"⟩ (initial_gen_state 30)).2.client :=
  (qty_conservation_c1.1 10 1000 ⟨2, 30, 0, 30, 0, "PENDING"⟩
    (initial_gen_state 30) rfl rfl rfl rfl rfl).2.2.1

/-! ### Average-price bookkeeping lemmas -/

lemma process_fills_parent_log (child : Order) (fills : List Fill)
    (pd : ParentData)
    (h0 : pd.ord.filled_quantity = (pd.fills.map (fun f => f.quantity)).sum)
    (hpos : ∀ f ∈ pd.fills, 0 < f.quantity)
    (hbpos : ∀ f ∈ fills, 0 < f.quantity)
    (havg : pd.fills ≠ [] → pd.ord.average_price
        = pyRound4 ((pd.fills.map fun f => (f.quantity : ℚ) * f.price).sum
            / (pd.ord.filled_quantity : ℚ))) :
    (process_fills child fills pd).2.ord.filled_quantity
        = (((process_fills child fills pd).2.fills).map
            (fun f => f.quantity)).sum
    ∧ (∀ f ∈ (process_fills child fills pd).2.fills, 0 < f.quantity)
    ∧ ((process_fills child fills pd).2.fills ≠ [] →
        (process_fills child fills pd).2.ord.average_price
          = pyRound4 ((((process_fills child fills pd).2.fills).map
                fun f => (f.quantity : ℚ) * f.price).sum
              / (((process_fills child fills pd).2.ord.filled_quantity : ℤ) : ℚ))) := by
  cases fills with
  | nil =>
      simp only [process_fills, List.isEmpty_nil, if_pos]
      exact ⟨h0, hpos, havg⟩
  | cons a l =>
      have hfills : (process_fills child (a :: l) pd).2.fills
          = pd.fills ++ a :: l := by
        simp [process_fills]
      have hfilled : (process_fills child (a :: l) pd).2.ord.filled_quantity
          = pd.ord.filled_quantity + ((a :: l).map (fun f => f.quantity)).sum := by
        simp [process_fills]
      have hsumpos : 0 < ((a :: l).map (fun f => f.quantity)).sum := by
        simp only [List.map_cons, List.sum_cons]
        have h1 : 0 < a.quantity := hbpos a (by simp)
        have h2 : 0 ≤ (l.map (fun f => f.quantity)).sum := by
          apply List.sum_nonneg
          intro x hx
          rcases List.mem_map.mp hx with ⟨f, hf, rfl⟩
          exact le_of_lt (hbpos f (by simp [hf]))
        linarith
      have holdnn : 0 ≤ pd.ord.filled_quantity := by
        rw [h0]
        apply List.sum_nonneg
        intro x hx
        rcases List.mem_map.mp hx with ⟨f, hf, rfl⟩
        exact le_of_lt (hpos f hf)
      have hfl2 : 0 < (process_fills child (a :: l) pd).2.ord.filled_quantity := by
        rw [hfilled]
        linarith
      refine ⟨?_, ?_, ?_⟩
      · rw [hfilled, hfills, h0, List.map_append, List.sum_append]
      · intro f hf
        rw [hfills] at hf
        rcases List.mem_append.mp hf with hf | hf
        · exact hpos f hf
        · exact hbpos f hf
      · intro hne
        have hparent : (process_fills child (a :: l) pd).2.ord.average_price
            = if pd.ord.filled_quantity + ((a :: l).map (fun f => f.quantity)).sum > 0
              then pyRound4
                ((((pd.fills ++ a :: l)).map
                    (fun f => (f.quantity : ℚ) * f.price)).sum
                  / ((pd.ord.filled_quantity
                      + ((a :: l).map (fun f => f.quantity)).sum : ℤ) : ℚ))
              else 0 := by
          simp [process_fills]
        rw [hparent, if_pos (by linarith), hfills, hfilled]

lemma run_algo_engine_cons (pd : ParentData) (b : Order × List Fill)
    (rest : List (Order × List Fill)) :
    run_algo_engine pd (b :: rest)
      = run_algo_engine (process_fills b.1 b.2 pd).2 rest := by
  simp [run_algo_engine]

lemma run_algo_engine_invariant (batches : List (Order × List Fill)) :
    ∀ pd : ParentData,
    pd.ord.filled_quantity = (pd.fills.map (fun f => f.quantity)).sum →
    (∀ f ∈ pd.fills, 0 < f.quantity) →
    (pd.fills ≠ [] → pd.ord.average_price
        = pyRound4 ((pd.fills.map fun f => (f.quantity : ℚ) * f.price).sum
            / (pd.ord.filled_quantity : ℚ))) →
    (∀ b ∈ batches, ∀ f ∈ b.2, 0 < f.quantity) →
    ((run_algo_engine pd batches).ord.filled_quantity
        = (((run_algo_engine pd batches).fills).map (fun f => f.quantity)).sum
      ∧ (∀ f ∈ (run_algo_engine pd batches).fills, 0 < f.quantity)
      ∧ ((run_algo_engine pd batches).fills ≠ [] →
          (run_algo_engine pd batches).ord.average_price
            = pyRound4 ((((run_algo_engine pd batches).fills).map
                  fun f => (f.quantity : ℚ) * f.price).sum
                / (((run_algo_engine pd batches).ord.filled_quantity : ℤ) : ℚ)))) := by
  induction batches with
  | nil =>
      intro pd h0 hpos havg hb
      simp only [run_algo_engine, List.foldl_nil]
      exact ⟨h0, hpos, havg⟩
  | cons b rest ih =>
      intro pd h0 hpos havg hb
      rw [run_algo_engine_cons]
      have hstep := process_fills_parent_log b.1 b.2 pd h0 hpos
        (hb b (by simp)) havg
      exact ih (process_fills b.1 b.2 pd).2 hstep.1 hstep.2.1 hstep.2.2
        (fun b2 hb2 => hb b2 (by simp [hb2]))

lemma tick_flow_slice_invariant (st : TickFlowState) (batch : List Fill)
    (hb : ∀ f ∈ batch, 0 < f.quantity)
    (h0 : st.total_filled = (st.fills_data.map (fun f => f.quantity)).sum)
    (hpos : ∀ f ∈ st.fills_data, 0 < f.quantity)
    (havg : st.fills_data ≠ [] →
        st.algo_parent.filled_quantity = st.total_filled
        ∧ st.algo_parent.average_price
            = (st.fills_data.map fun f => (f.quantity : ℚ) * f.price).sum
                / (st.total_filled : ℚ)) :
    (tick_flow_slice st batch).total_filled
        = (((tick_flow_slice st batch).fills_data).map (fun f => f.quantity)).sum
    ∧ (∀ f ∈ (tick_flow_slice st batch).fills_data, 0 < f.quantity)
    ∧ ((tick_flow_slice st batch).fills_data ≠ [] →
        (tick_flow_slice st batch).algo_parent.filled_quantity
            = (tick_flow_slice st batch).total_filled
        ∧ (tick_flow_slice st batch).algo_parent.average_price
            = ((tick_flow_slice st batch).fills_data.map
                fun f => (f.quantity : ℚ) * f.price).sum
                / ((tick_flow_slice st batch).total_filled : ℚ)) := by
  cases batch with
  | nil =>
      simp only [tick_flow_slice, List.map_nil, List.sum_nil, List.append_nil]
      have : ¬ ((0 : ℤ) > 0) := by norm_num
      rw [if_neg this]
      exact ⟨h0, hpos, havg⟩
  | cons a l =>
      have hsumpos : 0 < (((a :: l)).map (fun f => f.quantity)).sum := by
        simp only [List.map_cons, List.sum_cons]
        have h1 : 0 < a.quantity := hb a (by simp)
        have h2 : 0 ≤ (l.map (fun f => f.quantity)).sum := by
          apply List.sum_nonneg
          intro x hx
          rcases List.mem_map.mp hx with ⟨f, hf, rfl⟩
          exact le_of_lt (hb f (by simp [hf]))
        linarith
      simp only [tick_flow_slice, if_pos hsumpos]
      refine ⟨?_, ?_, ?_⟩
      · simp only [List.map_append, List.sum_append, h0]
      · intro f hf
        rcases List.mem_append.mp hf with hf | hf
        · exact hpos f hf
        · exact hb f hf
      · intro hne
        have hpos2 : 0 < st.total_filled + ((a :: l).map (fun f => f.quantity)).sum := by
          have : 0 ≤ st.total_filled := by
            rw [h0]
            apply List.sum_nonneg
            intro x hx
            rcases List.mem_map.mp hx with ⟨f, hf, rfl⟩
            exact le_of_lt (hpos f hf)
          linarith
        constructor
        · simp
        · simp only [if_pos hpos2]

lemma run_tick_flow_aux (batches : List (List Fill)) :
    ∀ st : TickFlowState,
    (∀ b ∈ batches, ∀ f ∈ b, 0 < f.quantity) →
    st.total_filled = (st.fills_data.map (fun f => f.quantity)).sum →
    (∀ f ∈ st.fills_data, 0 < f.quantity) →
    (st.fills_data ≠ [] →
        st.algo_parent.filled_quantity = st.total_filled
        ∧ st.algo_parent.average_price
            = (st.fills_data.map fun f => (f.quantity : ℚ) * f.price).sum
                / (st.total_filled : ℚ)) →
    (let stf := batches.foldl tick_flow_slice st
     stf.total_filled = (stf.fills_data.map (fun f => f.quantity)).sum
     ∧ (stf.fills_data ≠ [] →
        stf.algo_parent.filled_quantity = stf.total_filled
        ∧ stf.algo_parent.average_price
            = (stf.fills_data.map fun f => (f.quantity : ℚ) * f.price).sum
                / (stf.total_filled : ℚ))) := by
  induction batches with
  | nil =>
      intro st hb h0 hpos havg
      exact ⟨h0, havg⟩
  | cons b rest ih =>
      intro st hb h0 hpos havg
      simp only [List.foldl_cons]
      have hstep := tick_flow_slice_invariant st b (hb b (by simp)) h0 hpos
        havg
      exact ih (tick_flow_slice st b) (fun b2 hb2 => hb b2 (by simp [hb2]))
        hstep.1 hstep.2.1 hstep.2.2

lemma pyRound4_302_thirds : pyRound4 ((302 : ℚ) / 3) = 1006667 / 10000 := by
  have harg : ((302 : ℚ) / 3) * 10000 = 3020000 / 3 := by norm_num
  have hfl : ⌊(3020000 : ℚ) / 3⌋ = 1006666 := by
    rw [Int.floor_eq_iff]
    constructor <;> norm_num
  simp only [pyRound4, round_half_even, harg, hfl]
  norm_num

/-- C2 counterexample: in AlgoEngine._process_fills the stored parent
average_price is round(mean, 4); for fills of 1 share at 100 and 2 shares
at 101 the exact mean is 302/3 but the stored value is 100.6667, so
recomputing the exact weighted mean from the fill log does not reproduce
the stored average_price. -/
theorem parent_average_exact_c2_counterexample :
    (process_fills ⟨2, 3, 0, 3, 0, "PENDING"⟩ [⟨1, 100⟩, ⟨2, 101⟩]
        ⟨⟨1, 3, 0, 3, 0, "WORKING"⟩, ⟨0, 3, 0, 3, 0, "PENDING"⟩, []⟩).2.ord.filled_quantity
        = 3
    ∧ (((process_fills ⟨2, 3, 0, 3, 0, "PENDING"⟩ [⟨1, 100⟩, ⟨2, 101⟩]
        ⟨⟨1, 3, 0, 3, 0, "WORKING"⟩, ⟨0, 3, 0, 3, 0, "PENDING"⟩, []⟩).2.fills.map
          fun f => (f.quantity : ℚ) * f.price).sum
        / (((process_fills ⟨2, 3, 0, 3, 0, "PENDING"⟩ [⟨1, 100⟩, ⟨2, 101⟩]
        ⟨⟨1, 3, 0, 3, 0, "WORKING"⟩, ⟨0, 3, 0, 3, 0, "PENDING"⟩, []⟩).2.ord.filled_quantity : ℤ) : ℚ))
        = 302 / 3
    ∧ (process_fills ⟨2, 3, 0, 3, 0, "PENDING"⟩ [⟨1, 100⟩, ⟨2, 101⟩]
        ⟨⟨1, 3, 0, 3, 0, "WORKING"⟩, ⟨0, 3, 0, 3, 0, "PENDING"⟩, []⟩).2.ord.average_price
        = 1006667 / 10000
    ∧ (process_fills ⟨2, 3, 0, 3, 0, "PENDING"⟩ [⟨1, 100⟩, ⟨2, 101⟩]
        ⟨⟨1, 3, 0, 3, 0, "WORKING"⟩, ⟨0, 3, 0, 3, 0, "PENDING"⟩, []⟩).2.ord.average_price
        ≠ (((process_fills ⟨2, 3, 0, 3, 0, "PENDING"⟩ [⟨1, 100⟩, ⟨2, 101⟩]
        ⟨⟨1, 3, 0, 3, 0, "WORKING"⟩, ⟨0, 3, 0, 3, 0, "PENDING"⟩, []⟩).2.fills.map
          fun f => (f.quantity : ℚ) * f.price).sum
        / (((process_fills ⟨2, 3, 0, 3, 0, "PENDING"⟩ [⟨1, 100⟩, ⟨2, 101⟩]
        ⟨⟨1, 3, 0, 3, 0, "WORKING"⟩, ⟨0, 3, 0, 3, 0, "PENDING"⟩, []⟩).2.ord.filled_quantity : ℤ) : ℚ)) := by
  have havg : (process_fills ⟨2, 3, 0, 3, 0, "PENDING"⟩ [⟨1, 100⟩, ⟨2, 101⟩]
      ⟨⟨1, 3, 0, 3, 0, "WORKING"⟩, ⟨0, 3, 0, 3, 0, "PENDING"⟩, []⟩).2.ord.average_price
      = pyRound4 ((302 : ℚ) / 3) := by
    simp [process_fills]
    norm_num
  refine ⟨by simp [process_fills], by simp [process_fills]; norm_num, ?_, ?_⟩
  · rw [havg, pyRound4_302_thirds]
  · rw [havg, pyRound4_302_thirds]
    have h2 : (((process_fills ⟨2, 3, 0, 3, 0, "PENDING"⟩ [⟨1, 100⟩, ⟨2, 101⟩]
        ⟨⟨1, 3, 0, 3, 0, "WORKING"⟩, ⟨0, 3, 0, 3, 0, "PENDING"⟩, []⟩).2.fills.map
          fun f => (f.quantity : ℚ) * f.price).sum
        / (((process_fills ⟨2, 3, 0, 3, 0, "PENDING"⟩ [⟨1, 100⟩, ⟨2, 101⟩]
        ⟨⟨1, 3, 0, 3, 0, "WORKING"⟩, ⟨0, 3, 0, 3, 0, "PENDING"⟩, []⟩).2.ord.filled_quantity : ℤ) : ℚ))
        = 302 / 3 := by
      simp [process_fills]
      norm_num
    rw [h2]
    norm_num

/-- C2 amended: the AlgoParent average_price is the quantity-weighted mean
of the global cumulative fill log, stored rounded half-to-even at 4
decimal places by AlgoEngine._process_fills (so the round trip from the
raw fill log reproduces the stored value only after the same rounding),
and stored exactly, satisfying the exact round-trip law, by the
generate_tick_database cascade. -/
theorem parent_average_round_trip_c2_amended :
    (∀ (parent0 client0 : Order) (batches : List (Order × List Fill)),
        parent0.filled_quantity = 0 →
        (∀ b ∈ batches, ∀ f ∈ b.2, 0 < f.quantity) →
        ((run_algo_engine ⟨parent0, client0, []⟩ batches).ord.filled_quantity
            = (((run_algo_engine ⟨parent0, client0, []⟩ batches).fills).map
                (fun f => f.quantity)).sum
          ∧ ((run_algo_engine ⟨parent0, client0, []⟩ batches).fills ≠ [] →
              (run_algo_engine ⟨parent0, client0, []⟩ batches).ord.average_price
                = pyRound4 ((((run_algo_engine ⟨parent0, client0, []⟩ batches).fills).map
                      fun f => (f.quantity : ℚ) * f.price).sum
                    / (((run_algo_engine ⟨parent0, client0, []⟩
                        batches).ord.filled_quantity : ℤ) : ℚ)))))
    ∧ (∀ (quantity : ℤ) (batches : List (List Fill)),
        (∀ b ∈ batches, ∀ f ∈ b, 0 < f.quantity) →
        ((run_tick_flow quantity batches).total_filled
            = (((run_tick_flow quantity batches).fills_data).map
                (fun f => f.quantity)).sum
          ∧ ((run_tick_flow quantity batches).fills_data ≠ [] →
              (run_tick_flow quantity batches).algo_parent.filled_quantity
                  = (run_tick_flow quantity batches).total_filled
              ∧ (run_tick_flow quantity batches).algo_parent.average_price
                  = ((run_tick_flow quantity batches).fills_data.map
                      fun f => (f.quantity : ℚ) * f.price).sum
                    / ((run_tick_flow quantity batches).total_filled : ℚ)))) := by
  constructor
  · intro parent0 client0 batches hp0 hb
    have h := run_algo_engine_invariant batches ⟨parent0, client0, []⟩
      (by simpa using hp0) (by simp) (by simp) hb
    exact ⟨h.1, h.2.2⟩
  · intro quantity batches hb
    have h := run_tick_flow_aux batches
      { quantity := quantity, total_filled := 0, fills_data := [],
        algo_parent :=
          { order_level := 1, quantity := quantity,
            filled_quantity := 0, remaining_quantity := quantity,
            average_price := 0, state := "WORKING" },
        client_order :=
          { order_level := 0, quantity := quantity,
            filled_quantity := 0, remaining_quantity := quantity,
            average_price := 0, state := "PENDING" } }
      hb (by simp) (by simp) (by simp)
    exact h

/-- Witness for parent_average_round_trip_c2_amended: one 2-share batch at
price 100 gives a stored parent average of exactly 100 both ways. -/
theorem parent_average_round_trip_c2_witness :
    (run_algo_engine ⟨⟨1, 2, 0, 2, 0, "WORKING"⟩, ⟨0, 2, 0, 2, 0, "PENDING"⟩, []⟩
        [(⟨2, 2, 0, 2, 0, "PENDING"⟩, [⟨2, 100⟩])]).ord.filled_quantity
      = (((run_algo_engine ⟨⟨1, 2, 0, 2, 0, "WORKING"⟩, ⟨0, 2, 0, 2, 0, "PENDING"⟩, []⟩
        [(⟨2, 2, 0, 2, 0, "PENDING"⟩, [⟨2, 100⟩])]).fills).map
          (fun f => f.quantity)).sum :=
  (parent_average_round_trip_c2_amended.1 ⟨1, 2, 0, 2, 0, "WORKING"⟩
    ⟨0, 2, 0, 2, 0, "PENDING"⟩ [(⟨2, 2, 0, 2, 0, "PENDING"⟩, [⟨2, 100⟩])]
    rfl (by norm_num)).1

/-! ### Router bound lemmas -/

lemma execute_order_fill_bounds (instr : String) (q : ℤ) (env : VenueEnv)
    (hq : 0 ≤ q) :
    0 ≤ (execute_order instr q env).2 ∧ (execute_order instr q env).2 ≤ q := by
  simp only [execute_order]
  split_ifs <;> simp <;> omega

lemma route_venue_step_bounds (instr : String) (st : RouteState)
    (env : VenueEnv) (h : 0 ≤ st.remaining_qty) :
    0 ≤ (route_venue_step instr st env).remaining_qty
    ∧ (route_venue_step instr st env).remaining_qty ≤ st.remaining_qty
    ∧ (route_venue_step instr st env).remaining_qty
        + (route_venue_step instr st env).total_filled
      = st.remaining_qty + st.total_filled
    ∧ st.total_filled ≤ (route_venue_step instr st env).total_filled := by
  simp only [route_venue_step]
  split_ifs with h1 h2 h3
  · exact ⟨h, le_refl _, rfl, le_refl _⟩
  · exact ⟨h, le_refl _, rfl, le_refl _⟩
  · have hslice : (0 : ℤ) < min st.remaining_qty (env.router_liquidity : ℤ) := by
      omega
    have hf := execute_order_fill_bounds instr
      (min st.remaining_qty (env.router_liquidity : ℤ)) env (le_of_lt hslice)
    have hle : (execute_order instr
          (min st.remaining_qty (env.router_liquidity : ℤ)) env).2
        ≤ st.remaining_qty := le_trans hf.2 (min_le_left _ _)
    refine ⟨?_, ?_, ?_, ?_⟩ <;> simp <;> omega
  · exact ⟨h, le_refl _, rfl, le_refl _⟩

lemma route_pass_cons (instr : String) (a : VenueEnv) (l : List VenueEnv)
    (st : RouteState) :
    route_pass instr (a :: l) st
      = route_pass instr l (route_venue_step instr st a) := by
  simp [route_pass]

lemma route_pass_bounds (instr : String) (venues : List VenueEnv) :
    ∀ st : RouteState, 0 ≤ st.remaining_qty →
    (0 ≤ (route_pass instr venues st).remaining_qty
    ∧ (route_pass instr venues st).remaining_qty ≤ st.remaining_qty
    ∧ (route_pass instr venues st).remaining_qty
        + (route_pass instr venues st).total_filled
      = st.remaining_qty + st.total_filled
    ∧ st.total_filled ≤ (route_pass instr venues st).total_filled) := by
  induction venues with
  | nil =>
      intro st h
      simp only [route_pass, List.foldl_nil]
      exact ⟨h, le_refl _, trivial, le_refl _⟩
  | cons a l ih =>
      intro st h
      rw [route_pass_cons]
      have h1 := route_venue_step_bounds instr st a h
      have h2 := ih (route_venue_step instr st a) h1.1
      refine ⟨h2.1, le_trans h2.2.1 h1.2.1, ?_, le_trans h1.2.2.2 h2.2.2.2⟩
      rw [h2.2.2.1, h1.2.2.1]

lemma route_loop_bounds (passes : List (List VenueEnv)) :
    ∀ (rc : ℕ) (st : RouteState), 0 ≤ st.remaining_qty →
    ((route_loop passes rc st).2 ≤ passes.length
    ∧ 0 ≤ (route_loop passes rc st).1.remaining_qty
    ∧ (route_loop passes rc st).1.remaining_qty
        + (route_loop passes rc st).1.total_filled
      = st.remaining_qty + st.total_filled
    ∧ st.total_filled ≤ (route_loop passes rc st).1.total_filled) := by
  induction passes with
  | nil =>
      intro rc st h
      simp only [route_loop]
      exact ⟨Nat.le_refl _, h, trivial, le_refl _⟩
  | cons v rest ih =>
      intro rc st h
      simp only [route_loop]
      split_ifs with hrem
      · have h1 := route_pass_bounds (sor_instruction rc) v st h
        have h2 := ih (rc + 1) (route_pass (sor_instruction rc) v st) h1.1
        refine ⟨?_, h2.2.1, ?_, le_trans h1.2.2.2 h2.2.2.2⟩
        · simpa [List.length_cons] using Nat.add_le_add_right h2.1 1
        · rw [h2.2.2.1, h1.2.2.1]
      · exact ⟨Nat.zero_le _, h, rfl, le_refl _⟩

/-- C8: route_order runs at most 1 + max_retries routing passes (at most 3
with the default max_retries = 2), the first pass with the aggressive EOE
instruction and every retry pass with IOC; it returns a total_filled with
0 ≤ total_filled ≤ quantity, and the residual quantity
quantity - total_filled is exactly the nonnegative remaining_qty handed
back to the caller, never silently dropped. -/
theorem route_order_c8 (q : ℤ) (mr : ℕ) (passes : List (List VenueEnv))
    (hq : 0 ≤ q) :
    ((route_order q mr passes).2 ≤ mr + 1
    ∧ 0 ≤ (route_order q mr passes).1.total_filled
    ∧ (route_order q mr passes).1.total_filled ≤ q
    ∧ (route_order q mr passes).1.total_filled
        + (route_order q mr passes).1.remaining_qty = q
    ∧ 0 ≤ (route_order q mr passes).1.remaining_qty)
    ∧ sor_instruction 0 = "ExecuteOrEliminate"
    ∧ (∀ k : ℕ, k ≠ 0 → sor_instruction k = "ImmediateOrCancel") := by
  have h := route_loop_bounds (passes.take (mr + 1)) 0
    { remaining_qty := q, total_filled := 0 } hq
  have hlen : (passes.take (mr + 1)).length ≤ mr + 1 := by
    rw [List.length_take]
    omega
  refine ⟨⟨le_trans h.1 hlen, h.2.2.2, ?_, ?_, h.2.1⟩, rfl, ?_⟩
  · have := h.2.2.1
    have := h.2.1
    simp only [route_order] at *
    omega
  · have := h.2.2.1
    simp only [route_order] at *
    omega
  · intro k hk
    simp [sor_instruction, hk]

/-- Witness for route_order_c8: a 1000-share order with max_retries 2 and
no market environments fills nothing, reports residual 1000, and uses at
most 3 passes. -/
theorem route_order_c8_witness :
    (route_order 1000 2 []).2 ≤ 3
    ∧ (route_order 1000 2 []).1.total_filled
        + (route_order 1000 2 []).1.remaining_qty = 1000 :=
  ⟨(route_order_c8 1000 2 [] (by norm_num)).1.1,
    (route_order_c8 1000 2 [] (by norm_num)).1.2.2.2.1⟩

/-! ### Tick-log lemmas for the fixed production generator -/

lemma propagate_components (fq : ℤ) (fv : ℚ) (sl : Order) (st : GenState)
    (hfq : fq ≠ 0) :
    (propagate_fill_up_chain fq fv sl st).2.total_filled
        = st.total_filled + fq
    ∧ (propagate_fill_up_chain fq fv sl st).2.order_size = st.order_size
    ∧ (propagate_fill_up_chain fq fv sl st).2.client.order_level
        = st.client.order_level
    ∧ (propagate_fill_up_chain fq fv sl st).2.algo_parent.order_level
        = st.algo_parent.order_level
    ∧ (propagate_fill_up_chain fq fv sl st).2.client.filled_quantity
        = st.total_filled + fq
    ∧ (propagate_fill_up_chain fq fv sl st).1.order_level = sl.order_level
    ∧ (propagate_fill_up_chain fq fv sl st).2.snapshots
        = st.snapshots ++
          [⟨(propagate_fill_up_chain fq fv sl st).1, "SLICE_UPDATE"⟩,
            ⟨(propagate_fill_up_chain fq fv sl st).2.algo_parent, "ALGO_UPDATE"⟩,
            ⟨(propagate_fill_up_chain fq fv sl st).2.client, "CLIENT_UPDATE"⟩] := by
  simp only [propagate_fill_up_chain, if_neg hfq]
  refine ⟨trivial, trivial, trivial, trivial, trivial, ?_, trivial⟩
  split_ifs <;> rfl

lemma filter_level_triple (s1 s2 s3 : Snapshot)
    (h1 : s1.ord.order_level = 2) (h2 : s2.ord.order_level = 1)
    (h3 : s3.ord.order_level = 0) :
    List.filter (fun s => decide (s.ord.order_level = 0)) [s1, s2, s3]
      = [s3] := by
  simp [List.filter, h1, h2, h3]

lemma filter_level_pair (s1 s2 : Snapshot)
    (h1 : s1.ord.order_level = 1) (h2 : s2.ord.order_level = 0) :
    List.filter (fun s => decide (s.ord.order_level = 0)) [s1, s2]
      = [s2] := by
  simp [List.filter, h1, h2]

lemma gen_step_invariant (st : GenState) (e : FillEvent)
    (he : 0 < e.filled_qty) (hl : e.slice.order_level = 2)
    (hc : st.client.order_level = 0) (ha : st.algo_parent.order_level = 1)
    (hcf : st.client.filled_quantity = st.total_filled)
    (hchain : List.Chain' (· ≤ ·)
        ((client_log st).map (fun s => s.ord.filled_quantity)))
    (hlast : ∀ s ∈ (client_log st).getLast?,
        s.ord.filled_quantity = st.total_filled)
    (hne : client_log st ≠ []) :
    (apply_fill_event st e).client.order_level = 0
    ∧ (apply_fill_event st e).algo_parent.order_level = 1
    ∧ (apply_fill_event st e).client.filled_quantity
        = (apply_fill_event st e).total_filled
    ∧ (apply_fill_event st e).total_filled = st.total_filled + e.filled_qty
    ∧ (apply_fill_event st e).order_size = st.order_size
    ∧ List.Chain' (· ≤ ·)
        ((client_log (apply_fill_event st e)).map
          (fun s => s.ord.filled_quantity))
    ∧ (∀ s ∈ (client_log (apply_fill_event st e)).getLast?,
        s.ord.filled_quantity = (apply_fill_event st e).total_filled)
    ∧ client_log (apply_fill_event st e) ≠ [] := by
  have hfq : e.filled_qty ≠ 0 := by omega
  have hcomp := propagate_components e.filled_qty e.fill_value e.slice st hfq
  simp only [apply_fill_event]
  have hlog : client_log
        (propagate_fill_up_chain e.filled_qty e.fill_value e.slice st).2
      = client_log st
        ++ [⟨(propagate_fill_up_chain e.filled_qty e.fill_value
              e.slice st).2.client, "CLIENT_UPDATE"⟩] := by
    unfold client_log
    rw [hcomp.2.2.2.2.2.2, List.filter_append]
    congr 1
    exact filter_level_triple _ _ _ (by rw [hcomp.2.2.2.2.2.1, hl])
      (by rw [hcomp.2.2.2.1, ha]) (by rw [hcomp.2.2.1, hc])
  have hnewfilled : (propagate_fill_up_chain e.filled_qty e.fill_value
        e.slice st).2.client.filled_quantity
      = st.total_filled + e.filled_qty := hcomp.2.2.2.2.1
  have htot : (propagate_fill_up_chain e.filled_qty e.fill_value
        e.slice st).2.total_filled
      = st.total_filled + e.filled_qty := hcomp.1
  refine ⟨by rw [hcomp.2.2.1, hc], by rw [hcomp.2.2.2.1, ha],
    by rw [hnewfilled, htot], htot, hcomp.2.1, ?_, ?_, ?_⟩
  · rw [hlog, List.map_append]
    rw [List.chain'_append]
    refine ⟨hchain, by simp, ?_⟩
    intro x hx y hy
    simp only [List.map_cons, List.map_nil, List.head?_cons,
      Option.mem_def, Option.some.injEq] at hy
    rw [List.getLast?_map] at hx
    simp only [Option.mem_def, Option.map_eq_some'] at hx
    rcases hx with ⟨s, hs, rfl⟩
    have := hlast s hs
    rw [this, ← hy, hnewfilled]
    omega
  · intro s hs
    rw [hlog, List.getLast?_concat] at hs
    simp only [Option.mem_def, Option.some.injEq] at hs
    rw [← hs]
    rw [htot]
    exact hnewfilled
  · rw [hlog]
    simp

lemma gen_fold_invariant (events : List FillEvent) :
    ∀ st : GenState,
    (∀ e ∈ events, 0 < e.filled_qty ∧ e.slice.order_level = 2) →
    st.client.order_level = 0 → st.algo_parent.order_level = 1 →
    st.client.filled_quantity = st.total_filled →
    List.Chain' (· ≤ ·)
        ((client_log st).map (fun s => s.ord.filled_quantity)) →
    (∀ s ∈ (client_log st).getLast?,
        s.ord.filled_quantity = st.total_filled) →
    client_log st ≠ [] →
    ((events.foldl apply_fill_event st).client.order_level = 0
    ∧ (events.foldl apply_fill_event st).algo_parent.order_level = 1
    ∧ (events.foldl apply_fill_event st).client.filled_quantity
        = (events.foldl apply_fill_event st).total_filled
    ∧ (events.foldl apply_fill_event st).total_filled
        = st.total_filled + (events.map (fun e => e.filled_qty)).sum
    ∧ (events.foldl apply_fill_event st).order_size = st.order_size
    ∧ List.Chain' (· ≤ ·)
        ((client_log (events.foldl apply_fill_event st)).map
          (fun s => s.ord.filled_quantity))
    ∧ (∀ s ∈ (client_log (events.foldl apply_fill_event st)).getLast?,
        s.ord.filled_quantity = (events.foldl apply_fill_event st).total_filled)
    ∧ client_log (events.foldl apply_fill_event st) ≠ []) := by
  induction events with
  | nil =>
      intro st hev hc ha hcf hchain hlast hne
      simp only [List.foldl_nil, List.map_nil, List.sum_nil, add_zero]
      exact ⟨hc, ha, hcf, trivial, trivial, hchain, hlast, hne⟩
  | cons e rest ih =>
      intro st hev hc ha hcf hchain hlast hne
      simp only [List.foldl_cons]
      have hstep := gen_step_invariant st e (hev e (by simp)).1
        (hev e (by simp)).2 hc ha hcf hchain hlast hne
      have hrest := ih (apply_fill_event st e)
        (fun x hx => hev x (by simp [hx]))
        hstep.1 hstep.2.1 hstep.2.2.1 hstep.2.2.2.2.2.1
        hstep.2.2.2.2.2.2.1 hstep.2.2.2.2.2.2.2
      refine ⟨hrest.1, hrest.2.1, hrest.2.2.1, ?_, ?_,
        hrest.2.2.2.2.2.1, hrest.2.2.2.2.2.2.1, hrest.2.2.2.2.2.2.2⟩
      · rw [hrest.2.2.2.1, hstep.2.2.2.1]
        simp only [List.map_cons, List.sum_cons]
        ring
      · rw [hrest.2.2.2.2.1, hstep.2.2.2.2.1]

/-- C9: in the ordered snapshot log of the fixed production generator, the
subsequence of snapshots with order_level = 0 carries a monotonically
non-decreasing filled_quantity, and on full execution the final
client-level snapshot has filled_quantity equal to the total quantity in
state FILLED. -/
theorem client_log_monotone_c9 (n : ℤ) (events : List FillEvent)
    (hev : ∀ e ∈ events, 0 < e.filled_qty ∧ e.slice.order_level = 2) :
    List.Chain' (· ≤ ·)
      ((client_log (run_generator n events)).map
        (fun s => s.ord.filled_quantity))
    ∧ ((events.map (fun e => e.filled_qty)).sum = n →
        ∀ s ∈ (client_log (run_generator n events)).getLast?,
          s.ord.filled_quantity = n ∧ s.ord.state = "FILLED") := by
  have hinit_log : client_log (initial_gen_state n)
      = [⟨{ order_level := 0, quantity := n, filled_quantity := 0,
            remaining_quantity := n, average_price := 0,
            state := "PENDING" }, "NEW"⟩,
         ⟨{ order_level := 0, quantity := n, filled_quantity := 0,
            remaining_quantity := n, average_price := 0,
            state := "ACCEPTED" }, "ACCEPTED"⟩] := by
    simp [initial_gen_state, client_log, List.filter]
  have hfold := gen_fold_invariant events (initial_gen_state n) hev
    rfl rfl rfl
    (by rw [hinit_log]; simp)
    (by
      rw [hinit_log]
      intro s hs
      simp only [List.getLast?_cons_cons, List.getLast?_singleton,
        Option.mem_def, Option.some.injEq] at hs
      rw [← hs]
      rfl)
    (by rw [hinit_log]; simp)
  set stf := events.foldl apply_fill_event (initial_gen_state n) with hstf
  have hrun : run_generator n events = finalize_generator stf := rfl
  have hsize : stf.order_size = n := by
    rw [hfold.2.2.2.2.1]
    rfl
  have htotal : stf.total_filled = (events.map (fun e => e.filled_qty)).sum := by
    rw [hfold.2.2.2.1]
    simp [initial_gen_state]
  by_cases hdone : stf.total_filled ≥ stf.order_size
  · have hfin : finalize_generator stf
        = { stf with
            algo_parent := { stf.algo_parent with state := "FILLED" },
            client := { stf.client with state := "FILLED" },
            snapshots := stf.snapshots ++
              [⟨{ stf.algo_parent with state := "FILLED" }, "COMPLETED"⟩,
                ⟨{ stf.client with state := "FILLED" }, "COMPLETED"⟩] } := by
      simp only [finalize_generator, if_pos hdone]
    have hlogf : client_log (run_generator n events)
        = client_log stf
          ++ [⟨{ stf.client with state := "FILLED" }, "COMPLETED"⟩] := by
      rw [hrun, hfin]
      unfold client_log
      simp only []
      rw [List.filter_append]
      congr 1
      exact filter_level_pair _ _ (by simpa using hfold.2.1)
        (by simpa using hfold.1)
    constructor
    · rw [hlogf, List.map_append, List.chain'_append]
      refine ⟨hfold.2.2.2.2.2.1, by simp, ?_⟩
      intro x hx y hy
      simp only [List.map_cons, List.map_nil, List.head?_cons,
        Option.mem_def, Option.some.injEq] at hy
      rw [List.getLast?_map] at hx
      simp only [Option.mem_def, Option.map_eq_some'] at hx
      rcases hx with ⟨s, hs, rfl⟩
      have h1 := hfold.2.2.2.2.2.2.1 s hs
      rw [h1, ← hy]
      show stf.total_filled ≤ stf.client.filled_quantity
      rw [hfold.2.2.1]
    · intro hsum s hs
      rw [hlogf, List.getLast?_concat] at hs
      simp only [Option.mem_def, Option.some.injEq] at hs
      rw [← hs]
      constructor
      · show stf.client.filled_quantity = n
        rw [hfold.2.2.1, htotal, hsum]
      · rfl
  · have hfin : finalize_generator stf = stf := by
      simp only [finalize_generator, if_neg hdone]
    constructor
    · rw [hrun, hfin]
      exact hfold.2.2.2.2.2.1
    · intro hsum
      exfalso
      apply hdone
      rw [htotal, hsum, hsize]

/-- Witness for client_log_monotone_c9: a single 30-share fill at 100 fully
executes a 30-share order. -/
theorem client_log_monotone_c9_witness :
    List.Chain' (· ≤ ·)
      ((client_log (run_generator 30 [⟨30, 3000, ⟨2, 30, 0, 30, 0, "PENDING"⟩⟩])).map
        (fun s => s.ord.filled_quantity)) :=
  (client_log_monotone_c9 30 [⟨30, 3000, ⟨2, 30, 0, 30, 0, "PENDING"⟩⟩]
    (by intro e he; simp at he; subst he; exact ⟨by norm_num, rfl⟩)).1

end VwapSim
